import Mathlib

/-!
# Verification of the flat-file blog server (`src/server.js`)

A shallow embedding of the request handlers of the Express blog
application: account signup/login, post creation/listing/deletion and
per-user like/dislike toggling over flat JSON collections.

Modelling conventions:
* JavaScript falsy tests on string-valued fields (`!x`, `x || d`) are
  modelled on `Option String`, where `none` is an absent field and
  `some ""` is the empty string; both are falsy.
* `bcrypt.hash` and `bcrypt.compare` are external library calls; they
  enter the model as function parameters (`hash`, `verify`).
* ISO-8601 `createdAt` timestamps on posts are modelled as epoch
  milliseconds (`Nat`); the listing route compares them through
  `new Date(...)`, a monotone reading of the ISO string.
* Each route handler becomes a pure function from its inputs and the
  collections it reads to its HTTP response and the collections it
  persists; a handler that does not write a collection returns it
  unchanged.
-/

namespace BlogApp

/-- JavaScript falsy test for a string-valued field: `!x` is true when
the field is absent (`undefined`) or the empty string. -/
def falsy : Option String → Bool
  | none => true
  | some s => s == ""

/-- JavaScript `x || d` for a string-valued field: the default replaces
an absent or empty value. -/
def jsOr (v : Option String) (dflt : String) : String :=
  match v with
  | none => dflt
  | some s => if s == "" then dflt else s

/-- An admin record from `admins.json`: pre-provisioned, so both
`password_hash` and `name` may be absent. -/
structure Admin where
  email : String
  password_hash : Option String
  name : Option String
deriving DecidableEq

/-- A user record from `users.json`, as appended by the signup route:
`\x7b name: name || "", email, password_hash, createdAt \x7d`. -/
structure User where
  name : String
  email : String
  password_hash : String
  createdAt : String
deriving DecidableEq

/-- A post record from `blogs.json` (`createdAt` as epoch ms). -/
structure Post where
  id : String
  title : String
  content : String
  authorEmail : String
  authorName : String
  createdAt : Nat
  likes : List String
  dislikes : List String
deriving DecidableEq, Inhabited

/-- Session role, as stored in `req.session.user.role`. -/
inductive Role
  | admin
  | user
deriving DecidableEq

/-- The session record established by a successful login:
`req.session.user = \x7b email, name, role \x7d`. -/
structure SessionUser where
  email : String
  name : String
  role : Role
deriving DecidableEq

/-! ## Auth gate (`POST /login`, `POST /signup`) -/

/-- Response of the login route. -/
inductive LoginResp
  | adminNotConfigured
  | invalidCredentials
  | success (sess : SessionUser)
deriving DecidableEq

/-- `POST /login`: look the email up in the admin list first, then the
user list; `verify` stands for `bcrypt.compare`. Establishing the
session is modelled by returning it in `LoginResp.success`. -/
def login (verify : String → String → Bool) (admins : List Admin)
    (users : List User) (email password : String) : LoginResp :=
  match admins.find? (fun a => a.email == email) with
  | some admin =>
    if falsy admin.password_hash then
      .adminNotConfigured
    else if verify password (admin.password_hash.getD "") then
      .success ⟨email, jsOr admin.name "Admin", .admin⟩
    else
      .invalidCredentials
  | none =>
    match users.find? (fun u => u.email == email) with
    | none => .invalidCredentials
    | some user =>
      if verify password user.password_hash then
        .success ⟨email,
          (if user.name == "" then (email.splitOn "@").headD "" else user.name),
          .user⟩
      else
        .invalidCredentials

/-- Response of the signup route. -/
inductive SignupResp
  | validationError
  | duplicateEmail
  | redirect
deriving DecidableEq

/-- `POST /signup`: validate presence of email and password, reject a
duplicate email (exact `===` match against either list), otherwise hash
the password and append one user record. Returns the response together
with the persisted `users.json` contents (unchanged on failure, since
the route only writes on the success path). `hash` stands for
`bcrypt.hash`, `now` for `new Date().toISOString()`. -/
def signup (hash : String → String) (now : String)
    (name email password : Option String)
    (admins : List Admin) (users : List User) : SignupResp × List User :=
  if falsy email || falsy password then
    (.validationError, users)
  else
    let e := email.getD ""
    if admins.any (fun a => a.email == e) || users.any (fun u => u.email == e) then
      (.duplicateEmail, users)
    else
      (.redirect, users ++ [⟨jsOr name "", e, hash (password.getD ""), now⟩])

/-! ## Post lifecycle (`GET /`, `POST /posts`, `DELETE /posts/:id`) -/

/-- The post record built by `POST /posts`: `fresh` stands for
`nanoid(10)`, `now` for the creation timestamp. -/
def mkPost (fresh : String) (now : Nat) (sess : SessionUser)
    (title content : Option String) : Post where
  id := fresh
  title := jsOr (title.map String.trim) "(untitled)"
  content := jsOr (content.map String.trim) ""
  authorEmail := sess.email
  authorName := sess.name
  createdAt := now
  likes := []
  dislikes := []

/-- `POST /posts`: append the new post to `blogs.json`. -/
def createPost (fresh : String) (now : Nat) (sess : SessionUser)
    (title content : Option String) (posts : List Post) : List Post :=
  posts ++ [mkPost fresh now sess title content]

/-- `GET /`: `posts.sort((a, b) => new Date(b.createdAt) - new Date(a.createdAt))`,
a stable sort keeping `a` before `b` when the comparator is `≤ 0`,
i.e. when `b.createdAt ≤ a.createdAt`. -/
def listPosts (posts : List Post) : List Post :=
  posts.mergeSort (fun a b => b.createdAt ≤ a.createdAt)

/-- Response of the delete route. -/
inductive DeleteResp
  | notFound
  | forbidden
  | redirect
deriving DecidableEq

/-- `DELETE /posts/:id`: `findIndex`, 404 when absent, 403 unless the
session is an admin or the post's author, otherwise `splice(idx, 1)`
and persist. Returns the response with the persisted `blogs.json`
contents. -/
def deletePost (sess : SessionUser) (id : String) (posts : List Post) :
    DeleteResp × List Post :=
  match posts.findIdx? (fun p => p.id == id) with
  | none => (.notFound, posts)
  | some idx =>
    let post := posts.getD idx default
    if sess.role ≠ .admin ∧ post.authorEmail ≠ sess.email then
      (.forbidden, posts)
    else
      (.redirect, posts.eraseIdx idx)

/-! ## Reaction toggler (`POST /posts/:id/like`, `POST /posts/:id/dislike`) -/

/-- Response of the like/dislike routes. -/
inductive ReactResp
  | notFound
  | redirect
deriving DecidableEq

/-- In-place mutation of the first list element satisfying `q`, as done
through the reference returned by JavaScript `Array.prototype.find`. -/
def updateFirst (q : Post → Bool) (f : Post → Post) : List Post → List Post
  | [] => []
  | p :: ps => if q p then f p :: ps else p :: updateFirst q f ps

/-- The like route's mutation of the found post: drop `u` from
`dislikes` unconditionally, then toggle membership of `u` in `likes`. -/
def likeUpdate (u : String) (p : Post) : Post :=
  let p1 := { p with dislikes := p.dislikes.filter (fun e => e != u) }
  if p1.likes.contains u then
    { p1 with likes := p1.likes.filter (fun e => e != u) }
  else
    { p1 with likes := p1.likes ++ [u] }

/-- The dislike route's mutation of the found post: drop `u` from
`likes` unconditionally, then toggle membership of `u` in `dislikes`. -/
def dislikeUpdate (u : String) (p : Post) : Post :=
  let p1 := { p with likes := p.likes.filter (fun e => e != u) }
  if p1.dislikes.contains u then
    { p1 with dislikes := p1.dislikes.filter (fun e => e != u) }
  else
    { p1 with dislikes := p1.dislikes ++ [u] }

/-- `POST /posts/:id/like`. -/
def like (sess : SessionUser) (id : String) (posts : List Post) :
    ReactResp × List Post :=
  match posts.find? (fun p => p.id == id) with
  | none => (.notFound, posts)
  | some _ =>
    (.redirect, updateFirst (fun p => p.id == id) (likeUpdate sess.email) posts)

/-- `POST /posts/:id/dislike`. -/
def dislike (sess : SessionUser) (id : String) (posts : List Post) :
    ReactResp × List Post :=
  match posts.find? (fun p => p.id == id) with
  | none => (.notFound, posts)
  | some _ =>
    (.redirect, updateFirst (fun p => p.id == id) (dislikeUpdate sess.email) posts)

/-! ## Flat-file store (`readJSON`) -/

/-- A JSON value, as returned by `JSON.parse`. -/
inductive Json
  | arr (elems : List Json)
  | obj (fields : List (String × Json))
  | str (s : String)
  | num (n : Int)
  | boolean (b : Bool)
  | null

/-- Whether a JSON value is an array. -/
def Json.isArr : Json → Bool
  | .arr _ => true
  | _ => false

/-- Outcome of the `fs.readFile` call inside `readJSON`. -/
inductive FsError
  | enoent
  | other (msg : String)
deriving DecidableEq

/-- Errors `readJSON` propagates to its caller (rethrown from the
`catch` block when `e.code !== "ENOENT"`). -/
inductive ReadErr
  | parseError (msg : String)
  | ioError (msg : String)

/-- `readJSON(name)`: read the file and `JSON.parse(raw || "[]")`;
the `catch` turns `ENOENT` into an empty array and rethrows everything
else, including parse errors. `parse` stands for `JSON.parse`, `file`
for the result of `readFile`. -/
def readJSON (parse : String → Except String Json)
    (file : Except FsError String) : Except ReadErr Json :=
  match file with
  | .ok raw =>
    match parse (if raw == "" then "[]" else raw) with
    | .ok v => .ok v
    | .error m => .error (.parseError m)
  | .error .enoent => .ok (.arr [])
  | .error (.other m) => .error (.ioError m)

/-- A concrete fragment of JavaScript `JSON.parse`, agreeing with it on
the literals used below: `"[]"` parses to the empty array and the
two-character object literal `"\x7b\x7d"` parses to the empty object;
other inputs are rejected. -/
def parseLiteral (s : String) : Except String Json :=
  if s == "[]" then .ok (.arr [])
  else if s == "\x7b\x7d" then .ok (.obj [])
  else .error "Unexpected token"

/-! ## Whole-application state and operations -/

/-- The three persisted collections. -/
structure AppState where
  admins : List Admin
  users : List User
  posts : List Post
deriving DecidableEq

/-- One request to a mutating (or session-establishing) route, with the
external inputs it consumes. -/
inductive Op
  | signupOp (hash : String → String) (now : String)
      (name email password : Option String)
  | loginOp (verify : String → String → Bool) (email password : String)
  | createPostOp (fresh : String) (now : Nat) (sess : SessionUser)
      (title content : Option String)
  | deletePostOp (sess : SessionUser) (id : String)
  | likeOp (sess : SessionUser) (id : String)
  | dislikeOp (sess : SessionUser) (id : String)

/-- Effect of one request on the persisted collections. -/
def step (op : Op) (s : AppState) : AppState :=
  match op with
  | .signupOp hash now name email password =>
    { s with users := (signup hash now name email password s.admins s.users).2 }
  | .loginOp _ _ _ => s
  | .createPostOp fresh now sess title content =>
    { s with posts := createPost fresh now sess title content s.posts }
  | .deletePostOp sess id => { s with posts := (deletePost sess id s.posts).2 }
  | .likeOp sess id => { s with posts := (like sess id s.posts).2 }
  | .dislikeOp sess id => { s with posts := (dislike sess id s.posts).2 }

/-! ## Stated invariants -/

/-- Mutual exclusion of reactions on one post: no email is a member of
both `likes` and `dislikes`. -/
def exclusiveReactions (p : Post) : Bool :=
  p.likes.all (fun e => !(p.dislikes.contains e))

/-- Mutual exclusion of reactions on every post of the collection. -/
def postsExclusive (posts : List Post) : Bool :=
  posts.all exclusiveReactions

/-- Email uniqueness across the combined admin + user namespace. -/
def emailsUnique (admins : List Admin) (users : List User) : Prop :=
  (admins.map Admin.email ++ users.map User.email).Nodup

instance (admins : List Admin) (users : List User) :
    Decidable (emailsUnique admins users) := by
  unfold emailsUnique; infer_instance

/-- A sequence of signup requests, applied in order to `users.json`
(each request re-reads the then-current user list). -/
structure SignupReq where
  hash : String → String
  now : String
  name : Option String
  email : Option String
  password : Option String

/-- Run a sequence of signup requests against fixed admins. -/
def runSignups (reqs : List SignupReq) (admins : List Admin)
    (users : List User) : List User :=
  reqs.foldl (fun us r => (signup r.hash r.now r.name r.email r.password admins us).2) users

/-! ## Helper lemmas -/

lemma likeUpdate_id (u : String) (p : Post) : (likeUpdate u p).id = p.id := by
  unfold likeUpdate
  dsimp only
  split <;> rfl

lemma dislikeUpdate_id (u : String) (p : Post) : (dislikeUpdate u p).id = p.id := by
  unfold dislikeUpdate
  dsimp only
  split <;> rfl

lemma likeUpdate_dislikes_mem (u e : String) (p : Post) :
    e ∈ (likeUpdate u p).dislikes ↔ e ∈ p.dislikes ∧ e ≠ u := by
  unfold likeUpdate
  dsimp only
  split <;> simp [List.mem_filter]

lemma likeUpdate_likes_mem (u e : String) (p : Post) :
    e ∈ (likeUpdate u p).likes ↔ (if e = u then u ∉ p.likes else e ∈ p.likes) := by
  unfold likeUpdate
  dsimp only
  by_cases hu : u ∈ p.likes <;> by_cases he : e = u <;>
    simp [hu, he, List.mem_filter]

lemma dislikeUpdate_likes_mem (u e : String) (p : Post) :
    e ∈ (dislikeUpdate u p).likes ↔ e ∈ p.likes ∧ e ≠ u := by
  unfold dislikeUpdate
  dsimp only
  split <;> simp [List.mem_filter]

lemma dislikeUpdate_dislikes_mem (u e : String) (p : Post) :
    e ∈ (dislikeUpdate u p).dislikes ↔ (if e = u then u ∉ p.dislikes else e ∈ p.dislikes) := by
  unfold dislikeUpdate
  dsimp only
  by_cases hu : u ∈ p.dislikes <;> by_cases he : e = u <;>
    simp [hu, he, List.mem_filter]

lemma mem_updateFirst {q : Post → Bool} {f : Post → Post} {l : List Post} {p : Post}
    (h : p ∈ updateFirst q f l) : p ∈ l ∨ ∃ p0, p0 ∈ l ∧ p = f p0 := by
  induction l with
  | nil => simp [updateFirst] at h
  | cons a as ih =>
    rw [updateFirst] at h
    split at h
    · rcases List.mem_cons.mp h with h | h
      · exact Or.inr ⟨a, List.mem_cons_self a as, h⟩
      · exact Or.inl (List.mem_cons_of_mem a h)
    · rcases List.mem_cons.mp h with h | h
      · exact Or.inl (h ▸ List.mem_cons_self a as)
      · rcases ih h with h' | ⟨p0, hp0, hfp⟩
        · exact Or.inl (List.mem_cons_of_mem a h')
        · exact Or.inr ⟨p0, List.mem_cons_of_mem a hp0, hfp⟩

lemma find?_updateFirst (q : Post → Bool) (f : Post → Post)
    (hq : ∀ p, q (f p) = q p) (l : List Post) :
    (updateFirst q f l).find? q = (l.find? q).map f := by
  induction l with
  | nil => rfl
  | cons a as ih =>
    by_cases h : q a
    · rw [updateFirst]
      simp [h, List.find?_cons, hq]
    · rw [updateFirst]
      simp [h, List.find?_cons, ih]

lemma exclusiveReactions_iff (p : Post) :
    exclusiveReactions p = true ↔ ∀ e ∈ p.likes, e ∉ p.dislikes := by
  simp [exclusiveReactions]

lemma exclusive_likeUpdate (u : String) (p : Post)
    (h : exclusiveReactions p = true) :
    exclusiveReactions (likeUpdate u p) = true := by
  rw [exclusiveReactions_iff] at h ⊢
  intro e he hd
  rcases (likeUpdate_dislikes_mem u e p).mp hd with ⟨hd', hne⟩
  have hl := (likeUpdate_likes_mem u e p).mp he
  rw [if_neg hne] at hl
  exact h e hl hd'

lemma exclusive_dislikeUpdate (u : String) (p : Post)
    (h : exclusiveReactions p = true) :
    exclusiveReactions (dislikeUpdate u p) = true := by
  rw [exclusiveReactions_iff] at h ⊢
  intro e he hd
  rcases (dislikeUpdate_likes_mem u e p).mp he with ⟨he', hne⟩
  have hd' := (dislikeUpdate_dislikes_mem u e p).mp hd
  rw [if_neg hne] at hd'
  exact h e he' hd'

lemma mem_deletePost_snd {sess : SessionUser} {id : String} {posts : List Post}
    {p : Post} (hp : p ∈ (deletePost sess id posts).2) : p ∈ posts := by
  unfold deletePost at hp
  cases hfi : posts.findIdx? (fun q => q.id == id) with
  | none => rw [hfi] at hp; exact hp
  | some idx =>
    rw [hfi] at hp
    dsimp only at hp
    split at hp
    · exact hp
    · exact List.Sublist.mem hp (List.eraseIdx_sublist posts idx)

lemma mem_like_snd {sess : SessionUser} {id : String} {posts : List Post} {p : Post}
    (hp : p ∈ (like sess id posts).2) :
    p ∈ posts ∨ ∃ p0, p0 ∈ posts ∧ p = likeUpdate sess.email p0 := by
  unfold like at hp
  cases hf : posts.find? (fun q => q.id == id) with
  | none => rw [hf] at hp; exact Or.inl hp
  | some _ => rw [hf] at hp; exact mem_updateFirst hp

lemma mem_dislike_snd {sess : SessionUser} {id : String} {posts : List Post} {p : Post}
    (hp : p ∈ (dislike sess id posts).2) :
    p ∈ posts ∨ ∃ p0, p0 ∈ posts ∧ p = dislikeUpdate sess.email p0 := by
  unfold dislike at hp
  cases hf : posts.find? (fun q => q.id == id) with
  | none => rw [hf] at hp; exact Or.inl hp
  | some _ => rw [hf] at hp; exact mem_updateFirst hp

lemma postsExclusive_iff (l : List Post) :
    postsExclusive l = true ↔ ∀ p ∈ l, exclusiveReactions p = true := by
  simp [postsExclusive]

lemma findIdx?_first_match (q : Post → Bool) (l1 : List Post) (p : Post)
    (l2 : List Post) (h1 : ∀ x ∈ l1, q x = false) (hp : q p = true) :
    (l1 ++ p :: l2).findIdx? q = some l1.length := by
  induction l1 with
  | nil => simp [List.findIdx?_cons, hp]
  | cons a as ih =>
    have ha : q a = false := h1 a (List.mem_cons_self a as)
    have ih' := ih (fun x hx => h1 x (List.mem_cons_of_mem a hx))
    simp [List.findIdx?_cons, ha, List.findIdx?_succ, ih']

lemma getD_append_length (l1 : List Post) (p : Post) (l2 : List Post) (d : Post) :
    (l1 ++ p :: l2).getD l1.length d = p := by
  induction l1 with
  | nil => rfl
  | cons a as ih => simpa using ih

lemma eraseIdx_append_length (l1 : List Post) (p : Post) (l2 : List Post) :
    (l1 ++ p :: l2).eraseIdx l1.length = l1 ++ l2 := by
  induction l1 with
  | nil => rfl
  | cons a as ih =>
    simp only [List.cons_append, List.length_cons, List.eraseIdx_cons_succ, ih]

lemma deletePost_eq (sess : SessionUser) (id : String) (l1 : List Post) (p : Post)
    (l2 : List Post) (h1 : ∀ x ∈ l1, (x.id == id) = false)
    (hp : (p.id == id) = true) :
    deletePost sess id (l1 ++ p :: l2) =
      if sess.role ≠ .admin ∧ p.authorEmail ≠ sess.email then
        (.forbidden, l1 ++ p :: l2)
      else
        (.redirect, l1 ++ l2) := by
  unfold deletePost
  rw [findIdx?_first_match _ l1 p l2 h1 hp]
  dsimp only
  rw [getD_append_length, eraseIdx_append_length]

lemma signup_preserves_unique (hash : String → String) (now : String)
    (name email password : Option String) (admins : List Admin)
    (users : List User) (h : emailsUnique admins users) :
    emailsUnique admins (signup hash now name email password admins users).2 := by
  unfold signup
  split
  · exact h
  · dsimp only
    split
    · exact h
    · rename_i hdup
      simp only [Bool.or_eq_true, List.any_eq_true, beq_iff_eq, not_or,
        not_exists, not_and] at hdup
      obtain ⟨hA, hU⟩ := hdup
      unfold emailsUnique at h ⊢
      rw [List.map_append, ← List.append_assoc, List.nodup_append]
      refine ⟨h, by simp, ?_⟩
      simp only [List.map_cons, List.map_nil, List.disjoint_singleton,
        List.mem_append, List.mem_map, not_or, not_exists, not_and]
      constructor
      · intro a ha hae
        exact hA a ha hae
      · intro u hu hue
        exact hU u hu hue

lemma runSignups_preserves_unique (reqs : List SignupReq) (admins : List Admin)
    (users : List User) (h : emailsUnique admins users) :
    emailsUnique admins (runSignups reqs admins users) := by
  induction reqs generalizing users with
  | nil => exact h
  | cons r rs ih =>
    rw [runSignups, List.foldl_cons]
    exact ih _ (signup_preserves_unique r.hash r.now r.name r.email r.password admins users h)

lemma like_snd_eq {sess : SessionUser} {id : String} {posts : List Post}
    {p0 : Post} (h : posts.find? (fun p => p.id == id) = some p0) :
    (like sess id posts).2 =
      updateFirst (fun p => p.id == id) (likeUpdate sess.email) posts := by
  unfold like
  rw [h]

lemma find?_like {sess : SessionUser} {id : String} {posts : List Post}
    {p0 : Post} (h : posts.find? (fun p => p.id == id) = some p0) :
    ((like sess id posts).2).find? (fun p => p.id == id) =
      some (likeUpdate sess.email p0) := by
  rw [like_snd_eq h,
    find?_updateFirst _ _ (fun p => by rw [likeUpdate_id]) posts, h]
  rfl

/-! ## Claims -/

/-- C1: after any call to like or dislike — and after any other
operation (createPost, deletePost, signup, login) — every email is a
member of at most one of each post's likes and dislikes sets, provided
this mutual-exclusion invariant held for every post beforehand. -/
theorem reaction_exclusion_preserved (op : Op) (s : AppState)
    (h : postsExclusive s.posts = true) :
    postsExclusive (step op s).posts = true := by
  rw [postsExclusive_iff] at h
  rw [postsExclusive_iff]
  cases op with
  | signupOp hash now name email password => exact h
  | loginOp verify email password => exact h
  | createPostOp fresh now sess title content =>
    intro p hp
    simp only [step, createPost] at hp
    rcases List.mem_append.mp hp with hp | hp
    · exact h p hp
    · rw [List.mem_singleton] at hp
      subst hp
      rfl
  | deletePostOp sess id =>
    intro p hp
    exact h p (mem_deletePost_snd hp)
  | likeOp sess id =>
    intro p hp
    rcases mem_like_snd hp with hp | ⟨p0, hp0, rfl⟩
    · exact h p hp
    · exact exclusive_likeUpdate _ _ (h p0 hp0)
  | dislikeOp sess id =>
    intro p hp
    rcases mem_dislike_snd hp with hp | ⟨p0, hp0, rfl⟩
    · exact h p hp
    · exact exclusive_dislikeUpdate _ _ (h p0 hp0)

/-- Witness for C1: a like call on a state satisfying the invariant. -/
theorem reaction_exclusion_preserved_witness :
    postsExclusive (AppState.mk [] []
      [⟨"p1", "t", "c", "a@x.com", "A", 0, ["b@x.com"], []⟩]).posts = true ∧
    postsExclusive (step (.likeOp ⟨"b@x.com", "B", .user⟩ "p1")
      (AppState.mk [] []
        [⟨"p1", "t", "c", "a@x.com", "A", 0, ["b@x.com"], []⟩])).posts = true :=
  ⟨by decide, reaction_exclusion_preserved _ _ (by decide)⟩

/-- C2: deletePost answers NotFound when no post has the id, Forbidden
when the requester is neither admin nor the author — leaving the posts
collection unchanged in both failure cases — and otherwise removes
exactly the (first) post with that id and persists the rest. -/
theorem deletePost_spec (sess : SessionUser) (id : String) (posts : List Post) :
    ((∀ p ∈ posts, p.id ≠ id) → deletePost sess id posts = (.notFound, posts)) ∧
    (∀ l1 p l2, posts = l1 ++ p :: l2 → (∀ x ∈ l1, x.id ≠ id) → p.id = id →
      ((sess.role ≠ .admin ∧ p.authorEmail ≠ sess.email →
          deletePost sess id posts = (.forbidden, posts)) ∧
        (sess.role = .admin ∨ p.authorEmail = sess.email →
          deletePost sess id posts = (.redirect, l1 ++ l2)))) := by
  constructor
  · intro hnone
    unfold deletePost
    rw [List.findIdx?_eq_none_iff.mpr (fun x hx => by simpa using hnone x hx)]
  · rintro l1 p l2 rfl hl1 hpid
    have h1 : ∀ x ∈ l1, (x.id == id) = false := fun x hx => by simpa using hl1 x hx
    have hp : (p.id == id) = true := by simpa using hpid
    constructor
    · intro hc
      rw [deletePost_eq sess id l1 p l2 h1 hp, if_pos hc]
    · intro hc
      rw [deletePost_eq sess id l1 p l2 h1 hp, if_neg]
      rintro ⟨hr, ha⟩
      rcases hc with hc | hc
      · exact hr hc
      · exact ha hc

/-- Witness for C2: a non-admin, non-author delete request is refused
and leaves the collection unchanged. -/
theorem deletePost_spec_witness :
    deletePost ⟨"b@x.com", "B", .user⟩ "p1"
        [⟨"p1", "t", "c", "a@x.com", "A", 0, [], []⟩] =
      (.forbidden, [⟨"p1", "t", "c", "a@x.com", "A", 0, [], []⟩]) :=
  ((deletePost_spec ⟨"b@x.com", "B", .user⟩ "p1"
      [⟨"p1", "t", "c", "a@x.com", "A", 0, [], []⟩]).2
    [] ⟨"p1", "t", "c", "a@x.com", "A", 0, [], []⟩ [] rfl (by decide)
    (by decide)).1 (by decide)

/-- C3 counterexample: when the requester already likes the post, two
consecutive like calls do not net to "no reaction" — after the second
call the post's likes set again contains the requester (the store even
returns to its initial state, where the like is present). -/
theorem like_twice_counterexample :
    ((like ⟨"u@x.com", "U", .user⟩ "p1"
        (like ⟨"u@x.com", "U", .user⟩ "p1"
          [⟨"p1", "t", "c", "a@x.com", "A", 0, ["u@x.com"], []⟩]).2).2.map
      Post.likes) = [["u@x.com"]] := by decide

/-- C3 (amended): for every existing post, provided the requester is
not initially a member of that post's likes set, two consecutive like
calls with no intervening operations net to "no reaction": afterwards
the requester is a member of neither the post's likes nor its
dislikes. -/
theorem like_twice_clears (sess : SessionUser) (id : String) (posts : List Post)
    (p0 : Post) (h : posts.find? (fun p => p.id == id) = some p0)
    (h0 : sess.email ∉ p0.likes) :
    ∃ p2, ((like sess id (like sess id posts).2).2).find? (fun p => p.id == id)
        = some p2 ∧ sess.email ∉ p2.likes ∧ sess.email ∉ p2.dislikes := by
  have h1 := @find?_like sess id posts p0 h
  refine ⟨likeUpdate sess.email (likeUpdate sess.email p0), find?_like h1, ?_, ?_⟩
  · intro hmem
    have := (likeUpdate_likes_mem sess.email sess.email _).mp hmem
    rw [if_pos rfl] at this
    exact this ((likeUpdate_likes_mem sess.email sess.email p0).mpr
      (by rw [if_pos rfl]; exact h0))
  · intro hmem
    exact ((likeUpdate_dislikes_mem sess.email sess.email _).mp hmem).2 rfl

/-- C4: for every existing post, two consecutive like calls by the same
requester leave the requester's membership in the post's likes set
exactly as it was before the first call, and remove the requester from
the post's dislikes either way. -/
theorem like_twice_restores (sess : SessionUser) (id : String) (posts : List Post)
    (p0 : Post) (h : posts.find? (fun p => p.id == id) = some p0) :
    ∃ p2, ((like sess id (like sess id posts).2).2).find? (fun p => p.id == id)
        = some p2 ∧ (sess.email ∈ p2.likes ↔ sess.email ∈ p0.likes) ∧
        sess.email ∉ p2.dislikes := by
  have h1 := @find?_like sess id posts p0 h
  refine ⟨likeUpdate sess.email (likeUpdate sess.email p0), find?_like h1, ?_, ?_⟩
  · rw [likeUpdate_likes_mem, if_pos rfl, likeUpdate_likes_mem, if_pos rfl]
    exact not_not
  · intro hmem
    exact ((likeUpdate_dislikes_mem sess.email sess.email _).mp hmem).2 rfl

/-- Witness for C3 (amended): a requester who has not reacted, liking
twice, ends with no reaction recorded. -/
theorem like_twice_clears_witness :
    ∃ p2, ((like ⟨"u@x.com", "U", .user⟩ "p1"
        (like ⟨"u@x.com", "U", .user⟩ "p1"
          [⟨"p1", "t", "c", "a@x.com", "A", 0, [], ["u@x.com"]⟩]).2).2).find?
        (fun p => p.id == "p1") = some p2 ∧
      "u@x.com" ∉ p2.likes ∧ "u@x.com" ∉ p2.dislikes :=
  like_twice_clears ⟨"u@x.com", "U", .user⟩ "p1"
    [⟨"p1", "t", "c", "a@x.com", "A", 0, [], ["u@x.com"]⟩]
    ⟨"p1", "t", "c", "a@x.com", "A", 0, [], ["u@x.com"]⟩ (by decide) (by decide)

/-- Witness for C4: liking twice from a state where the requester likes
the post restores that like and clears the dislike slot. -/
theorem like_twice_restores_witness :
    ∃ p2, ((like ⟨"v@x.com", "V", .user⟩ "p9"
        (like ⟨"v@x.com", "V", .user⟩ "p9"
          [⟨"p9", "t", "c", "a@x.com", "A", 0, ["v@x.com"], []⟩]).2).2).find?
        (fun p => p.id == "p9") = some p2 ∧
      ("v@x.com" ∈ p2.likes ↔
        "v@x.com" ∈ (["v@x.com"] : List String)) ∧
      "v@x.com" ∉ p2.dislikes :=
  like_twice_restores ⟨"v@x.com", "V", .user⟩ "p9"
    [⟨"p9", "t", "c", "a@x.com", "A", 0, ["v@x.com"], []⟩]
    ⟨"p9", "t", "c", "a@x.com", "A", 0, ["v@x.com"], []⟩ (by decide)

/-- C5: with a present (non-falsy) email and password, signup fails
with DuplicateEmail — leaving the user list unchanged, the admin list
never being written at all — exactly when the email occurs verbatim
(case-sensitive `===`) in either account list; otherwise it appends
exactly one new user record carrying that email; consequently email
uniqueness across the combined admin+user namespace is preserved by any
sequence of signups. -/
theorem signup_spec (hash : String → String) (now : String)
    (name email password : Option String) (admins : List Admin)
    (users : List User) (reqs : List SignupReq) :
    (falsy email = false → falsy password = false →
      (admins.any (fun a => a.email == email.getD "") ||
        users.any (fun u => u.email == email.getD "")) = true →
      signup hash now name email password admins users =
        (.duplicateEmail, users)) ∧
    (falsy email = false → falsy password = false →
      (admins.any (fun a => a.email == email.getD "") ||
        users.any (fun u => u.email == email.getD "")) = false →
      signup hash now name email password admins users =
        (.redirect,
          users ++ [⟨jsOr name "", email.getD "", hash (password.getD ""), now⟩])) ∧
    (emailsUnique admins users →
      emailsUnique admins (runSignups reqs admins users)) := by
  refine ⟨?_, ?_, runSignups_preserves_unique reqs admins users⟩
  · intro he hp hdup
    simp [signup, he, hp, hdup]
  · intro he hp hdup
    simp [signup, he, hp, hdup]

/-- Witness for C5: a signup whose email verbatim matches an existing
admin entry is refused and the user list is unchanged. -/
theorem signup_spec_witness :
    signup (fun s => s) "2024-01-01" (some "B") (some "a@x.com") (some "pw")
        [⟨"a@x.com", some "hh", some "A"⟩] [] = (.duplicateEmail, []) :=
  (signup_spec (fun s => s) "2024-01-01" (some "B") (some "a@x.com") (some "pw")
      [⟨"a@x.com", some "hh", some "A"⟩] [] []).1 (by decide) (by decide)
    (by decide)

/-- C6: login looks the email up first in the admin list and then in
the user list; it answers InvalidCredentials when the email is absent
from both or the password fails verification against the stored hash,
AdminNotConfigured when the matched admin record has no (or an empty)
password hash, and on success records the email, a display name, and
the role corresponding to the list that matched. -/
theorem login_spec (verify : String → String → Bool) (admins : List Admin)
    (users : List User) (email password : String) :
    (admins.find? (fun x => x.email == email) = none →
      users.find? (fun x => x.email == email) = none →
      login verify admins users email password = .invalidCredentials) ∧
    (∀ a, admins.find? (fun x => x.email == email) = some a →
      (falsy a.password_hash = true →
        login verify admins users email password = .adminNotConfigured) ∧
      (falsy a.password_hash = false →
        verify password (a.password_hash.getD "") = false →
        login verify admins users email password = .invalidCredentials) ∧
      (falsy a.password_hash = false →
        verify password (a.password_hash.getD "") = true →
        login verify admins users email password =
          .success ⟨email, jsOr a.name "Admin", .admin⟩)) ∧
    (∀ u, admins.find? (fun x => x.email == email) = none →
      users.find? (fun x => x.email == email) = some u →
      (verify password u.password_hash = false →
        login verify admins users email password = .invalidCredentials) ∧
      (verify password u.password_hash = true →
        login verify admins users email password =
          .success ⟨email,
            (if u.name == "" then (email.splitOn "@").headD "" else u.name),
            .user⟩)) := by
  refine ⟨?_, ?_, ?_⟩
  · intro ha hu
    simp [login, ha, hu]
  · intro a ha
    refine ⟨?_, ?_, ?_⟩
    · intro hfal
      simp [login, ha, hfal]
    · intro hfal hv
      simp [login, ha, hfal, hv]
    · intro hfal hv
      simp [login, ha, hfal, hv]
  · intro u ha hu
    refine ⟨?_, ?_⟩
    · intro hv
      simp [login, ha, hu, hv]
    · intro hv
      simp [login, ha, hu, hv]

/-- Witness for C6: a signed-up user with a verifying password logs in
with role user. -/
theorem login_spec_witness :
    login (fun p h => p == h) [] [⟨"Alice", "alice@x.com", "pw1", "t"⟩]
        "alice@x.com" "pw1" = .success ⟨"alice@x.com", "Alice", .user⟩ :=
  ((login_spec (fun p h => p == h) []
      [⟨"Alice", "alice@x.com", "pw1", "t"⟩] "alice@x.com" "pw1").2.2
    ⟨"Alice", "alice@x.com", "pw1", "t"⟩ (by decide) (by decide)).2 (by decide)

lemma listPosts_three (p1 p2 p3 : Post) (h12 : p1.createdAt < p2.createdAt)
    (h23 : p2.createdAt < p3.createdAt) :
    listPosts [p1, p2, p3] = [p3, p2, p1] := by
  have ha : (decide (p1.createdAt ≤ p2.createdAt)) = true := by
    simp
    omega
  have hb : (decide (p2.createdAt ≤ p1.createdAt)) = false := by
    simp
    omega
  have hc : (decide (p3.createdAt ≤ p2.createdAt)) = false := by
    simp
    omega
  have hd : (decide (p3.createdAt ≤ p1.createdAt)) = false := by
    simp
    omega
  simp [listPosts, List.mergeSort, List.merge, ha, hb, hc, hd]

/-- C7: for a store obtained by creating posts P1, P2, P3 in that
order with strictly increasing creation timestamps, the listing route
returns [P3, P2, P1] — all posts, ordered newest-first by creation
timestamp. -/
theorem listPosts_order (s1 s2 s3 : SessionUser) (f1 f2 f3 : String)
    (t1 t2 t3 : Nat) (ti1 ti2 ti3 c1 c2 c3 : Option String)
    (h12 : t1 < t2) (h23 : t2 < t3) :
    listPosts (createPost f3 t3 s3 ti3 c3 (createPost f2 t2 s2 ti2 c2
        (createPost f1 t1 s1 ti1 c1 []))) =
      [mkPost f3 t3 s3 ti3 c3, mkPost f2 t2 s2 ti2 c2,
        mkPost f1 t1 s1 ti1 c1] := by
  have hs : createPost f3 t3 s3 ti3 c3 (createPost f2 t2 s2 ti2 c2
      (createPost f1 t1 s1 ti1 c1 [])) =
      [mkPost f1 t1 s1 ti1 c1, mkPost f2 t2 s2 ti2 c2,
        mkPost f3 t3 s3 ti3 c3] := by
    simp [createPost]
  rw [hs]
  exact listPosts_three _ _ _ h12 h23

/-- Witness for C7: three posts created at times 0 < 1 < 2 are listed
newest-first. -/
theorem listPosts_order_witness :
    listPosts (createPost "i3" 2 ⟨"a@x.com", "A", .user⟩ (some "T3") none
        (createPost "i2" 1 ⟨"a@x.com", "A", .user⟩ (some "T2") none
          (createPost "i1" 0 ⟨"a@x.com", "A", .user⟩ (some "T1") none []))) =
      [mkPost "i3" 2 ⟨"a@x.com", "A", .user⟩ (some "T3") none,
        mkPost "i2" 1 ⟨"a@x.com", "A", .user⟩ (some "T2") none,
        mkPost "i1" 0 ⟨"a@x.com", "A", .user⟩ (some "T1") none] :=
  listPosts_order ⟨"a@x.com", "A", .user⟩ ⟨"a@x.com", "A", .user⟩
    ⟨"a@x.com", "A", .user⟩ "i1" "i2" "i3" 0 1 2 (some "T1") (some "T2")
    (some "T3") none none none (by decide) (by decide)

/-- C8 counterexample: the two-character object literal is valid JSON
but not a JSON array, yet readJSON returns it as a successful result
instead of propagating an error. -/
theorem readJSON_nonarray_counterexample :
    readJSON parseLiteral (.ok "\x7b\x7d") = .ok (.obj []) ∧
    (Json.obj []).isArr = false :=
  ⟨rfl, rfl⟩

/-- C8 (amended): readJSON returns the empty collection when the
backing file is missing (ENOENT); a JSON parse failure on the file's
content, or any non-ENOENT I/O error, is propagated as an error rather
than swallowed (content that parses as valid JSON is returned as-is,
array or not). -/
theorem readJSON_spec (parse : String → Except String Json)
    (file : Except FsError String) :
    (file = .error .enoent → readJSON parse file = .ok (.arr [])) ∧
    (∀ m, file = .error (.other m) →
      readJSON parse file = .error (.ioError m)) ∧
    (∀ raw m, file = .ok raw →
      parse (if raw == "" then "[]" else raw) = .error m →
      readJSON parse file = .error (.parseError m)) := by
  refine ⟨?_, ?_, ?_⟩
  · rintro rfl
    rfl
  · rintro m rfl
    rfl
  · rintro raw m rfl hp
    unfold readJSON
    dsimp only
    rw [hp]

/-- Witness for C8 (amended): a missing file yields the empty array, a
permission error and a malformed file are propagated. -/
theorem readJSON_spec_witness :
    readJSON parseLiteral (.error .enoent) = .ok (.arr []) ∧
    readJSON parseLiteral (.error (.other "EACCES")) =
      .error (.ioError "EACCES") ∧
    readJSON parseLiteral (.ok "nonsense") =
      .error (.parseError "Unexpected token") :=
  ⟨(readJSON_spec parseLiteral (.error .enoent)).1 rfl,
    (readJSON_spec parseLiteral (.error (.other "EACCES"))).2.1 "EACCES" rfl,
    (readJSON_spec parseLiteral (.ok "nonsense")).2.2 "nonsense"
      "Unexpected token" rfl rfl⟩

/-- C9: a signup request with a missing or empty email, or a missing or
empty password, is answered with the validation error and leaves the
user collection untouched — for every account state and every hash
function, i.e. before the duplicate-email check and before any
hashing. -/
theorem signup_validation (hash : String → String) (now : String)
    (name email password : Option String) (admins : List Admin)
    (users : List User)
    (h : falsy email = true ∨ falsy password = true) :
    signup hash now name email password admins users =
      (.validationError, users) := by
  unfold signup
  rcases h with h | h <;> rw [h] <;> simp

/-- Witness for C9: an empty password is rejected even though the email
is fresh. -/
theorem signup_validation_witness :
    signup (fun s => s) "2024-01-01" (some "B") (some "b@x.com") (some "")
        [] [] = (.validationError, []) :=
  signup_validation (fun s => s) "2024-01-01" (some "B") (some "b@x.com")
    (some "") [] [] (by decide)

/-- C10: when the email matches an admin record, the login outcome does
not depend on the user list at all, and any successful login through
that email carries the admin role — so a user record sharing an admin's
email can never authenticate. -/
theorem login_admin_shadows_user (verify : String → String → Bool)
    (admins : List Admin) (users users' : List User)
    (email password : String) (a : Admin)
    (h : admins.find? (fun x => x.email == email) = some a) :
    login verify admins users email password =
      login verify admins users' email password ∧
    ∀ s, login verify admins users email password = .success s →
      s.role = .admin := by
  unfold login
  rw [h]
  refine ⟨rfl, ?_⟩
  intro s hs
  dsimp only at hs
  split at hs
  · cases hs
  · split at hs
    · cases hs
      rfl
    · cases hs

/-- Witness for C10: a user record sharing the admin's email and whose
own stored hash would verify is still ignored; the outcome is the same
as with no user list at all. -/
theorem login_admin_shadows_user_witness :
    login (fun p h => p == h) [⟨"a@x.com", some "hh", some "A"⟩]
        [⟨"A", "a@x.com", "pw", "t"⟩] "a@x.com" "pw" =
      login (fun p h => p == h) [⟨"a@x.com", some "hh", some "A"⟩] []
        "a@x.com" "pw" :=
  (login_admin_shadows_user (fun p h => p == h)
      [⟨"a@x.com", some "hh", some "A"⟩] [⟨"A", "a@x.com", "pw", "t"⟩] []
      "a@x.com" "pw" ⟨"a@x.com", some "hh", some "A"⟩ (by decide)).1

end BlogApp
